import Mathlib

/-!
Shallow embedding of the filter-and-aggregate pipeline of the NYC CitiBike
Streamlit dashboard (src/Dashboard_Part_2.py).

The dataset is modelled as a list of rows together with a record of which
columns are present.  A cell that pandas would hold as NaN/NaT (either
because the CSV field was empty or because to_datetime/to_numeric with
errors set to coerce failed to parse it) is modelled as none.  Parsed
timestamps are minutes since the epoch; flooring a timestamp to a calendar
day (dt.floor to one day, or dt.date) is division by 1440.  Numeric
weather cells are rationals.

Each dashboard page is embedded as a function from the dataset (plus the
sidebar parameters of that page) to Except PipeError of the derived
table(s): the st.error/st.stop validation path is the missingColumns
error, and an uncaught pandas KeyError raised by an aggregation that
subscripts a column that does not exist is the keyError error.

Grouping and counting: pandas groupby collects the distinct keys in first
appearance order and sorts them ascending; value_counts collects distinct
values in first appearance order and stable-sorts them by count.  Both are
modelled by collecting first-seen distinct keys and applying the (stable)
insertion sort of Mathlib.
-/

namespace Dashboard

/-- The rider-type sidebar selectbox: one of All, member, casual. -/
inductive Rider where
  | all
  | member
  | casual
deriving DecidableEq, Repr

/-- The string shown in the selectbox and stored in the member_casual column. -/
def Rider.toStr : Rider → String
  | .all => "All"
  | .member => "member"
  | .casual => "casual"

/-- One row of the loaded CSV.  Every cell is optional: none models NaN/NaT. -/
structure Row where
  started_at : Option Nat
  member_casual : Option String
  start_station_name : Option String
  end_station_name : Option String
  TMAX : Option ℚ
  TMIN : Option ℚ
  PRCP : Option ℚ
  ride_id : Option String
deriving DecidableEq, Repr

/-- Which columns the loaded CSV actually has (pandas df.columns membership). -/
structure Columns where
  started_at : Bool
  member_casual : Bool
  start_station_name : Bool
  end_station_name : Bool
  TMAX : Bool
  TMIN : Bool
  PRCP : Bool
  ride_id : Bool
deriving DecidableEq, Repr

/-- Column-presence test by column name, mirroring `c in df.columns`. -/
def Columns.has (c : Columns) : String → Bool
  | "started_at" => c.started_at
  | "member_casual" => c.member_casual
  | "start_station_name" => c.start_station_name
  | "end_station_name" => c.end_station_name
  | "TMAX" => c.TMAX
  | "TMIN" => c.TMIN
  | "PRCP" => c.PRCP
  | "ride_id" => c.ride_id
  | _ => false

/-- The loaded dataframe: column set plus rows. -/
structure Dataset where
  cols : Columns
  rows : List Row
deriving DecidableEq, Repr

/-- Failure modes of a page render. -/
inductive PipeError where
  | missingColumns : List String → PipeError
  | keyError : String → PipeError
deriving DecidableEq, Repr

/-- Decidable test for the validated missing-column signal
(the st.error message naming the missing columns, followed by st.stop). -/
def isMissingColumnsSignal {α : Type} : Except PipeError α → Bool
  | Except.error (PipeError.missingColumns _) => true
  | _ => false

/-- missing = [c for c in required_cols if c not in df.columns] -/
def missingOf (c : Columns) (required_cols : List String) : List String :=
  required_cols.filter (fun n => !(c.has n))

def minutesPerDay : Nat := 1440

/-- dt.floor to one calendar day, on a timestamp in minutes. -/
def dayOf (t : Nat) : Nat := t / minutesPerDay

/-- The floored date of a row, when its timestamp parsed. -/
def dateOf (r : Row) : Option Nat := r.started_at.map dayOf

/-- The hour-of-day component of a timestamp in minutes. -/
def hourOf (t : Nat) : Nat := t % minutesPerDay / 60

/-! ### Distinct keys in first-seen order

Pandas hash tables (groupby keys, value_counts labels) enumerate the
distinct values of a column in order of first appearance.  firstSeenAux
walks the list with an accumulator of values already seen. -/

/-- Distinct values of the input, in order of first appearance, skipping
values already in seen. -/
def firstSeenAux {α : Type} [DecidableEq α] (seen : List α) : List α → List α
  | [] => []
  | x :: xs =>
    if x ∈ seen then firstSeenAux seen xs
    else x :: firstSeenAux (x :: seen) xs

/-- Distinct values of the input, in order of first appearance. -/
def firstSeenKeys {α : Type} [DecidableEq α] (l : List α) : List α :=
  firstSeenAux [] l

theorem mem_firstSeenAux {α : Type} [DecidableEq α] (l : List α) :
    ∀ (seen : List α) (a : α), a ∈ firstSeenAux seen l ↔ a ∈ l ∧ a ∉ seen := by
  induction l with
  | nil => intro seen a; simp [firstSeenAux]
  | cons x xs ih =>
    intro seen a
    by_cases hx : x ∈ seen
    · rw [firstSeenAux, if_pos hx, ih]
      constructor
      · rintro ⟨h1, h2⟩
        exact ⟨List.mem_cons_of_mem _ h1, h2⟩
      · rintro ⟨h1, h2⟩
        rcases List.mem_cons.mp h1 with rfl | h1
        · exact absurd hx h2
        · exact ⟨h1, h2⟩
    · rw [firstSeenAux, if_neg hx]
      constructor
      · intro h
        rcases List.mem_cons.mp h with rfl | h
        · exact ⟨List.mem_cons_self _ _, hx⟩
        · rcases (ih _ a).mp h with ⟨h1, h2⟩
          refine ⟨List.mem_cons_of_mem _ h1, fun hs => h2 (List.mem_cons_of_mem _ hs)⟩
      · rintro ⟨h1, h2⟩
        rcases List.mem_cons.mp h1 with rfl | h1
        · exact List.mem_cons_self _ _
        · by_cases hax : a = x
          · subst hax; exact List.mem_cons_self _ _
          · refine List.mem_cons_of_mem _ ((ih _ a).mpr ⟨h1, ?_⟩)
            intro hs
            rcases List.mem_cons.mp hs with h | h
            · exact hax h
            · exact h2 h

theorem mem_firstSeenKeys {α : Type} [DecidableEq α] (l : List α) (a : α) :
    a ∈ firstSeenKeys l ↔ a ∈ l := by
  rw [firstSeenKeys, mem_firstSeenAux]
  simp

theorem nodup_firstSeenAux {α : Type} [DecidableEq α] (l : List α) :
    ∀ seen : List α, (firstSeenAux seen l).Nodup := by
  induction l with
  | nil => intro seen; simp [firstSeenAux]
  | cons x xs ih =>
    intro seen
    by_cases hx : x ∈ seen
    · rw [firstSeenAux, if_pos hx]; exact ih seen
    · rw [firstSeenAux, if_neg hx]
      refine List.nodup_cons.mpr ⟨?_, ih _⟩
      intro hmem
      exact ((mem_firstSeenAux xs _ x).mp hmem).2 (List.mem_cons_self _ _)

theorem nodup_firstSeenKeys {α : Type} [DecidableEq α] (l : List α) :
    (firstSeenKeys l).Nodup :=
  nodup_firstSeenAux l []

theorem firstSeenAux_sublist {α : Type} [DecidableEq α] (l : List α) :
    ∀ seen : List α, (firstSeenAux seen l).Sublist l := by
  induction l with
  | nil => intro seen; simp [firstSeenAux]
  | cons x xs ih =>
    intro seen
    by_cases hx : x ∈ seen
    · rw [firstSeenAux, if_pos hx]; exact (ih seen).cons x
    · rw [firstSeenAux, if_neg hx]; exact (ih (x :: seen)).cons₂ x

theorem firstSeenKeys_sublist {α : Type} [DecidableEq α] (l : List α) :
    (firstSeenKeys l).Sublist l :=
  firstSeenAux_sublist l []

theorem toFinset_firstSeenKeys {α : Type} [DecidableEq α] (l : List α) :
    (firstSeenKeys l).toFinset = l.toFinset := by
  ext a
  simp [List.mem_toFinset, mem_firstSeenKeys]

theorem length_firstSeenKeys {α : Type} [DecidableEq α] (l : List α) :
    (firstSeenKeys l).length = l.toFinset.card := by
  rw [← toFinset_firstSeenKeys, List.toFinset_card_of_nodup (nodup_firstSeenKeys l)]

/-! ### Page embeddings: Trips and Time Trends -/

/-- The Trips and Time Trends page-level filtering step: require the
started_at column, drop rows whose timestamp did not parse, keep rows whose
floored date lies in the inclusive sidebar range, and, when a rider type
other than All is selected and the member_casual column exists, keep rows
whose rider category equals it.  The selectbox only exists when the
member_casual column does, so the effective choice is All otherwise. -/
def tripsFilter (ds : Dataset) (sd ed : Nat) (choice : Rider) :
    Except PipeError (List Row) :=
  if ds.cols.started_at = false then
    Except.error (PipeError.missingColumns ["started_at"])
  else
    let r1 := ds.rows.filter (fun r => r.started_at.isSome)
    let r2 := r1.filter (fun r =>
      match dateOf r with
      | some d => decide (sd ≤ d) && decide (d ≤ ed)
      | none => false)
    let rf := if ds.cols.member_casual then choice else Rider.all
    let r3 :=
      if rf ≠ Rider.all ∧ ds.cols.member_casual then
        r2.filter (fun r => r.member_casual == some rf.toStr)
      else r2
    Except.ok r3

/-- df_time.groupby of date, size, reset_index, sort_values by date:
one entry per distinct floored date, ascending, with the row count. -/
def daily (rows : List Row) : List (Nat × Nat) :=
  (List.insertionSort (· ≤ ·) (firstSeenKeys (rows.filterMap dateOf))).map
    (fun d => (d, (rows.filter (fun r => dateOf r == some d)).length))

/-- df_time.groupby of hour, size, reindexed over the 24 hours with
fill_value zero. -/
def hourly (rows : List Row) : List (Nat × Nat) :=
  (List.range 24).map
    (fun h => (h, (rows.filter (fun r =>
      match r.started_at with
      | some t => hourOf t == h
      | none => false)).length))

/-- Mapping first projections over a pairing map is the identity. -/
theorem map_fst_map_pair {α β : Type} (l : List α) (g : α → β) :
    (l.map (fun d => (d, g d))).map Prod.fst = l := by
  induction l with
  | nil => rfl
  | cons a l ih => simp [ih]

/-- C1: the page-level filtering step of the Trips and Time Trends page keeps
exactly rows whose parsed start date lies in the inclusive sidebar range and,
when a rider type other than All is selected, whose rider category equals it;
the output is a sublist of the input rows (original order, no additions, no
duplications).  The rider choice can differ from All only when the
member_casual column exists, since the selectbox is only rendered then. -/
theorem tripsFilter_sound (ds : Dataset) (sd ed : Nat) (choice : Rider)
    (hmc : choice ≠ Rider.all → ds.cols.member_casual = true)
    (out : List Row) (h : tripsFilter ds sd ed choice = Except.ok out) :
    out.Sublist ds.rows ∧
    (∀ r ∈ out, ∃ t, r.started_at = some t ∧ sd ≤ dayOf t ∧ dayOf t ≤ ed) ∧
    (choice ≠ Rider.all → ∀ r ∈ out, r.member_casual = some choice.toStr) := by
  have hdatePred : ∀ r : Row,
      (match dateOf r with
        | some d => decide (sd ≤ d) && decide (d ≤ ed)
        | none => false) = true →
      ∃ t, r.started_at = some t ∧ sd ≤ dayOf t ∧ dayOf t ≤ ed := by
    intro r hp
    cases ht : r.started_at with
    | none => rw [dateOf, ht] at hp; simp at hp
    | some t =>
      rw [dateOf, ht, Option.map_some'] at hp
      simp only [Bool.and_eq_true, decide_eq_true_eq] at hp
      exact ⟨t, rfl, hp.1, hp.2⟩
  cases hst : ds.cols.started_at with
  | false => simp [tripsFilter, hst] at h
  | true =>
    cases hm : ds.cols.member_casual with
    | false =>
      have hch : choice = Rider.all := by
        by_contra hch
        simp [hmc hch] at hm
      subst hch
      simp only [tripsFilter, hst, hm, Bool.true_eq_false, if_false, Bool.false_eq_true,
        ite_false, ne_eq, not_true_eq_false, false_and, and_false, reduceCtorEq,
        Except.ok.injEq, not_false_eq_true] at h
      subst h
      refine ⟨(List.filter_sublist _).trans (List.filter_sublist _), ?_, ?_⟩
      · intro r hr
        exact hdatePred r (List.mem_filter.mp hr).2
      · intro hch
        exact absurd rfl hch
    | true =>
      by_cases hch : choice = Rider.all
      · subst hch
        simp only [tripsFilter, hst, hm, Bool.true_eq_false, if_false, ite_true,
          ne_eq, not_true_eq_false, false_and, and_true, if_true, reduceCtorEq,
          Except.ok.injEq, not_false_eq_true] at h
        subst h
        refine ⟨(List.filter_sublist _).trans (List.filter_sublist _), ?_, ?_⟩
        · intro r hr
          exact hdatePred r (List.mem_filter.mp hr).2
        · intro hch
          exact absurd rfl hch
      · simp only [tripsFilter, hst, hm, Bool.true_eq_false, if_false, ite_true,
          ne_eq, hch, not_false_eq_true, true_and, and_true, if_true, reduceCtorEq,
          Except.ok.injEq] at h
        subst h
        refine ⟨((List.filter_sublist _).trans (List.filter_sublist _)).trans
          (List.filter_sublist _), ?_, ?_⟩
        · intro r hr
          exact hdatePred r
            (List.mem_filter.mp (List.mem_filter.mp hr).1).2
        · intro _ r hr
          have hb := (List.mem_filter.mp hr).2
          simpa using hb

/-- A concrete member row for witnesses. -/
def wRow1 : Row :=
  { started_at := some 1500, member_casual := some "member",
    start_station_name := some "A", end_station_name := some "B",
    TMAX := some 40, TMIN := some 20, PRCP := some 0, ride_id := some "r1" }

/-- A concrete casual row for witnesses. -/
def wRow2 : Row :=
  { started_at := some 1500, member_casual := some "casual",
    start_station_name := some "A", end_station_name := some "B",
    TMAX := some 40, TMIN := some 20, PRCP := some 0, ride_id := some "r2" }

/-- A concrete dataset with all columns for witnesses. -/
def wDataset : Dataset :=
  { cols := { started_at := true, member_casual := true,
              start_station_name := true, end_station_name := true,
              TMAX := true, TMIN := true, PRCP := true, ride_id := true },
    rows := [wRow1, wRow2] }

/-- Closed instance of tripsFilter_sound on a concrete two-row dataset. -/
theorem tripsFilter_sound_witness :
    ((Rider.member ≠ Rider.all → wDataset.cols.member_casual = true) ∧
      tripsFilter wDataset 1 1 Rider.member = Except.ok [wRow1]) ∧
    ([wRow1].Sublist wDataset.rows ∧
      (∀ r ∈ [wRow1], ∃ t, r.started_at = some t ∧ 1 ≤ dayOf t ∧ dayOf t ≤ 1) ∧
      (Rider.member ≠ Rider.all →
        ∀ r ∈ [wRow1], r.member_casual = some Rider.member.toStr)) :=
  ⟨⟨fun _ => rfl, rfl⟩,
    tripsFilter_sound wDataset 1 1 Rider.member (fun _ => rfl) [wRow1] rfl⟩

/-- C4: in the daily trip-count series of the Trips and Time Trends page the
dates are strictly increasing with no duplicates, for every input row set,
and the empty row set yields an empty series rather than an error. -/
theorem daily_dates_strictly_increasing (rows : List Row) :
    ((daily rows).map Prod.fst).Sorted (· < ·) ∧
    ((daily rows).map Prod.fst).Nodup ∧ daily [] = [] := by
  have hmap : (daily rows).map Prod.fst =
      List.insertionSort (· ≤ ·) (firstSeenKeys (rows.filterMap dateOf)) := by
    unfold daily
    exact map_fst_map_pair _ _
  have hnd : (List.insertionSort (· ≤ ·) (firstSeenKeys (rows.filterMap dateOf))).Nodup :=
    (List.perm_insertionSort _ _).nodup_iff.mpr (nodup_firstSeenKeys _)
  refine ⟨?_, ?_, rfl⟩
  · rw [hmap]
    exact (List.sorted_insertionSort _ _).lt_of_le hnd
  · rw [hmap]; exact hnd

/-! ### Weather Impact page: preparation and daily aggregation -/

/-- A prepared row of the Weather Impact page: parsed floored date, the
avg_temp column, PRCP, and the untouched ride_id and member_casual cells. -/
structure WRow where
  date : Nat
  avg_temp : ℚ
  PRCP : ℚ
  ride_id : Option String
  member_casual : Option String
deriving DecidableEq, Repr

/-- Parse started_at, coerce TMAX TMIN PRCP, drop the row if any of the four
is missing, add avg_temp = (TMAX + TMIN) / 2 and the floored date. -/
def wrowOf (r : Row) : Option WRow :=
  match r.started_at, r.TMAX, r.TMIN, r.PRCP with
  | some t, some tmax, some tmin, some p =>
    some { date := dayOf t, avg_temp := (tmax + tmin) / 2, PRCP := p,
           ride_id := r.ride_id, member_casual := r.member_casual }
  | _, _, _, _ => none

/-- The dropna and column-derivation step of the Weather Impact page. -/
def weatherPrep (rows : List Row) : List WRow :=
  rows.filterMap wrowOf

/-- All four parsed cells of a row are present (the row survives dropna). -/
def weatherOk (r : Row) : Bool :=
  r.started_at.isSome && r.TMAX.isSome && r.TMIN.isSome && r.PRCP.isSome

/-- The per-row (TMAX + TMIN) / 2 value, when both temperatures parsed. -/
def tempOf (r : Row) : Option ℚ :=
  match r.TMAX, r.TMIN with
  | some tmax, some tmin => some ((tmax + tmin) / 2)
  | _, _ => none

/-- Arithmetic mean of a list of rationals (pandas mean over a group). -/
def qmean (l : List ℚ) : ℚ := l.sum / l.length

/-- One row of the daily_weather derived table. -/
structure DailyEntry where
  date : Nat
  trip_count : Nat
  avg_temp : ℚ
  prcp : ℚ
deriving DecidableEq, Repr

/-- The group of prepared rows sharing a floored date. -/
def wgroup (rows : List WRow) (d : Nat) : List WRow :=
  rows.filter (fun r => r.date == d)

/-- df_w.groupby of date with trip_count aggregated over ride_id when that
column exists (pandas count, which skips null cells) and over the group size
otherwise, mean avg_temp and mean PRCP, sorted ascending by date. -/
def daily_weather (hasRideId : Bool) (rows : List WRow) : List DailyEntry :=
  (List.insertionSort (· ≤ ·) (firstSeenKeys (rows.map WRow.date))).map
    (fun d =>
      { date := d,
        trip_count := if hasRideId
          then ((wgroup rows d).filter (fun r => r.ride_id.isSome)).length
          else (wgroup rows d).length,
        avg_temp := qmean ((wgroup rows d).map WRow.avg_temp),
        prcp := qmean ((wgroup rows d).map WRow.PRCP) })

theorem wrowOf_eq_some {r : Row} {w : WRow} (h : wrowOf r = some w) :
    weatherOk r = true ∧ dateOf r = some w.date ∧ r.ride_id = w.ride_id ∧
    tempOf r = some w.avg_temp ∧ r.PRCP = some w.PRCP := by
  cases ht : r.started_at with
  | none => rw [wrowOf, ht] at h; exact absurd h (by simp)
  | some t =>
    cases ha : r.TMAX with
    | none => rw [wrowOf, ht, ha] at h; exact absurd h (by simp)
    | some tmax =>
      cases hb : r.TMIN with
      | none => rw [wrowOf, ht, ha, hb] at h; exact absurd h (by simp)
      | some tmin =>
        cases hp : r.PRCP with
        | none => rw [wrowOf, ht, ha, hb, hp] at h; exact absurd h (by simp)
        | some p =>
          rw [wrowOf, ht, ha, hb, hp] at h
          cases h
          refine ⟨by simp [weatherOk, ht, ha, hb, hp], ?_, rfl, ?_, rfl⟩
          · rw [dateOf, ht, Option.map_some']
          · rw [tempOf, ha, hb]

theorem wrowOf_eq_none {r : Row} (h : wrowOf r = none) : weatherOk r = false := by
  cases ht : r.started_at with
  | none => simp [weatherOk, ht]
  | some t =>
    cases ha : r.TMAX with
    | none => simp [weatherOk, ht, ha]
    | some tmax =>
      cases hb : r.TMIN with
      | none => simp [weatherOk, ht, ha, hb]
      | some tmin =>
        cases hp : r.PRCP with
        | none => simp [weatherOk, ht, ha, hb, hp]
        | some p => rw [wrowOf, ht, ha, hb, hp] at h; exact absurd h (by simp)

/-- Grouping the prepared rows by a date is preparing the source rows that
survive dropna and carry that floored date. -/
theorem wgroup_weatherPrep (rows : List Row) (d : Nat) :
    wgroup (weatherPrep rows) d =
      weatherPrep (rows.filter (fun r => weatherOk r && (dateOf r == some d))) := by
  induction rows with
  | nil => rfl
  | cons r rows ih =>
    simp only [weatherPrep, wgroup, List.filterMap_cons, List.filter_cons] at ih ⊢
    cases hw : wrowOf r with
    | none =>
      have hok : weatherOk r = false := wrowOf_eq_none hw
      simpa [hok] using ih
    | some w =>
      obtain ⟨hok, hdate, -, -, -⟩ := wrowOf_eq_some hw
      by_cases hd : w.date = d
      · subst hd
        simp [hok, hdate, hw, List.filter_cons, ih]
      · simp [hok, hdate, hd, hw, List.filter_cons, ih]

/-- Counting prepared rows with a non-null ride_id counts the source rows
with a non-null ride_id, provided every source row survives dropna. -/
theorem weatherPrep_ride_count (rows : List Row)
    (hall : ∀ r ∈ rows, weatherOk r = true) :
    ((weatherPrep rows).filter (fun w => w.ride_id.isSome)).length =
      (rows.filter (fun r => r.ride_id.isSome)).length := by
  induction rows with
  | nil => rfl
  | cons r rows ih =>
    have hr : weatherOk r = true := hall r (List.mem_cons_self _ _)
    have ihx := ih (fun x hx => hall x (List.mem_cons_of_mem _ hx))
    cases hw : wrowOf r with
    | none => rw [wrowOf_eq_none hw] at hr; exact absurd hr (by simp)
    | some w =>
      obtain ⟨-, -, hride, -, -⟩ := wrowOf_eq_some hw
      simp only [weatherPrep, List.filterMap_cons, hw, List.filter_cons] at ihx ⊢
      cases hrs : r.ride_id.isSome
      · rw [hride] at hrs
        simp [hrs, ihx]
      · rw [hride] at hrs
        simp [hrs, ihx]

/-- The prepared rows are in bijection with the surviving source rows. -/
theorem weatherPrep_length (rows : List Row)
    (hall : ∀ r ∈ rows, weatherOk r = true) :
    (weatherPrep rows).length = rows.length := by
  induction rows with
  | nil => rfl
  | cons r rows ih =>
    have hr : weatherOk r = true := hall r (List.mem_cons_self _ _)
    have ihx := ih (fun x hx => hall x (List.mem_cons_of_mem _ hx))
    cases hw : wrowOf r with
    | none => rw [wrowOf_eq_none hw] at hr; exact absurd hr (by simp)
    | some w =>
      simp only [weatherPrep, List.filterMap_cons, hw, List.length_cons] at ihx ⊢
      rw [ihx]

/-- The avg_temp cells of the prepared rows are the per-row
(TMAX + TMIN) / 2 values of the source rows, provided every source row
survives dropna. -/
theorem weatherPrep_avg_temp (rows : List Row)
    (hall : ∀ r ∈ rows, weatherOk r = true) :
    (weatherPrep rows).map WRow.avg_temp = rows.filterMap tempOf := by
  induction rows with
  | nil => rfl
  | cons r rows ih =>
    have hr : weatherOk r = true := hall r (List.mem_cons_self _ _)
    have ihx := ih (fun x hx => hall x (List.mem_cons_of_mem _ hx))
    cases hw : wrowOf r with
    | none => rw [wrowOf_eq_none hw] at hr; exact absurd hr (by simp)
    | some w =>
      obtain ⟨-, -, -, htemp, -⟩ := wrowOf_eq_some hw
      simp only [weatherPrep, List.filterMap_cons, hw, List.map_cons, htemp] at ihx ⊢
      rw [ihx]

/-- Scenario rows from the spec: three trips over two days
(18993 and 18994 are the epoch day numbers of 2022-01-01 and 2022-01-02;
timestamps are minutes, so day d starts at minute d * 1440). -/
def sRow1 : Row :=
  { started_at := some (18993 * 1440), member_casual := some "member",
    start_station_name := some "StationA", end_station_name := some "StationB",
    TMAX := some 40, TMIN := some 20, PRCP := some 0, ride_id := none }

/-- Second scenario row: same day as sRow1, later in the day. -/
def sRow2 : Row :=
  { started_at := some (18993 * 1440 + 600), member_casual := some "casual",
    start_station_name := some "StationB", end_station_name := some "StationA",
    TMAX := some 40, TMIN := some 20, PRCP := some 0, ride_id := none }

/-- Third scenario row: the following day. -/
def sRow3 : Row :=
  { started_at := some (18994 * 1440), member_casual := some "member",
    start_station_name := some "StationA", end_station_name := some "StationC",
    TMAX := some 50, TMIN := some 30, PRCP := some 0, ride_id := none }

/-- The three-row scenario dataset of the spec. -/
def scenarioRows : List Row := [sRow1, sRow2, sRow3]

/-- A prepared row whose ride_id cell is null. -/
def nullRideRow : WRow :=
  { date := 18993, avg_temp := 30, PRCP := 0, ride_id := none,
    member_casual := none }

/-- C3 counterexample: with the ride_id column present, a group made of one
row whose ride_id cell is null gets trip_count 0 even though the group holds
one row, because the pandas count aggregation skips null cells; so trip_count
is not the number of rows in the group. -/
theorem daily_weather_count_counterexample :
    (daily_weather true [nullRideRow]).map DailyEntry.trip_count = [0] ∧
    (wgroup [nullRideRow] 18993).length = 1 ∧
    (daily_weather true [nullRideRow]).map DailyEntry.date = [18993] := by
  decide

/-- C3 amended: each entry of the daily weather aggregation counts, among the
source rows that survive dropna and whose floored start date is the entry's
date, all of them when the ride_id column is absent and only those with a
non-null ride_id when it is present; avg_temp is the arithmetic mean of the
per-row (TMAX + TMIN) / 2 values of that group; on the three-row scenario
dataset the result is [(2022-01-01, 2, 30), (2022-01-02, 1, 40)]. -/
theorem daily_weather_spec (hasRideId : Bool) (rows : List Row) :
    (∀ e ∈ daily_weather hasRideId (weatherPrep rows),
      (hasRideId = true → e.trip_count = (rows.filter (fun r =>
        r.ride_id.isSome && (weatherOk r && (dateOf r == some e.date)))).length) ∧
      (hasRideId = false → e.trip_count = (rows.filter (fun r =>
        weatherOk r && (dateOf r == some e.date))).length) ∧
      e.avg_temp = qmean ((rows.filter (fun r =>
        weatherOk r && (dateOf r == some e.date))).filterMap tempOf)) ∧
    daily_weather false (weatherPrep scenarioRows) =
      [{ date := 18993, trip_count := 2, avg_temp := 30, prcp := 0 },
       { date := 18994, trip_count := 1, avg_temp := 40, prcp := 0 }] := by
  constructor
  · intro e he
    rcases List.mem_map.mp he with ⟨d, hd, rfl⟩
    have hallX : ∀ r ∈ rows.filter (fun r =>
        weatherOk r && (dateOf r == some d)), weatherOk r = true := by
      intro r hr
      have := (List.mem_filter.mp hr).2
      exact (Bool.and_eq_true_iff.mp this).1
    refine ⟨?_, ?_, ?_⟩
    · intro hri
      subst hri
      show ((wgroup (weatherPrep rows) d).filter (fun r => r.ride_id.isSome)).length = _
      rw [wgroup_weatherPrep, weatherPrep_ride_count _ hallX, List.filter_filter]
    · intro hri
      subst hri
      show (wgroup (weatherPrep rows) d).length = _
      rw [wgroup_weatherPrep, weatherPrep_length _ hallX]
    · show qmean ((wgroup (weatherPrep rows) d).map WRow.avg_temp) = _
      rw [wgroup_weatherPrep, weatherPrep_avg_temp _ hallX]
  · norm_num [daily_weather, weatherPrep, scenarioRows, sRow1, sRow2, sRow3, wrowOf,
      wgroup, qmean, firstSeenKeys, firstSeenAux, dayOf, minutesPerDay,
      List.insertionSort, List.orderedInsert, List.filterMap_cons, List.filter_cons]

/-- Closed instance of daily_weather_spec on the scenario dataset. -/
theorem daily_weather_spec_witness :
    ({ date := 18993, trip_count := 2, avg_temp := 30, prcp := 0 } : DailyEntry) ∈
      daily_weather false (weatherPrep scenarioRows) ∧
    (({ date := 18993, trip_count := 2, avg_temp := 30, prcp := 0 } : DailyEntry).trip_count =
      (scenarioRows.filter (fun r =>
        weatherOk r && (dateOf r == some
          ({ date := 18993, trip_count := 2, avg_temp := 30, prcp := 0 } : DailyEntry).date))).length) := by
  have hmem : ({ date := 18993, trip_count := 2, avg_temp := 30, prcp := 0 } : DailyEntry) ∈
      daily_weather false (weatherPrep scenarioRows) := by
    rw [(daily_weather_spec false scenarioRows).2]
    exact List.mem_cons_self _ _
  exact ⟨hmem, ((daily_weather_spec false scenarioRows).1 _ hmem).2.1 rfl⟩

/-! ### Dual-Axis page -/

/-- A prepared row of the Dual-Axis page: its dropna is only on started_at,
TMAX and TMIN, so PRCP is not required there. -/
structure SRow where
  date : Nat
  avg_temp : ℚ
  ride_id : Option String
deriving DecidableEq, Repr

/-- The Dual-Axis preparation of one row. -/
def srowOf (r : Row) : Option SRow :=
  match r.started_at, r.TMAX, r.TMIN with
  | some t, some tmax, some tmin =>
    some { date := dayOf t, avg_temp := (tmax + tmin) / 2, ride_id := r.ride_id }
  | _, _, _ => none

/-- The dropna and column-derivation step of the Dual-Axis page. -/
def dualPrep (rows : List Row) : List SRow :=
  rows.filterMap srowOf

/-- One row of the daily_summary derived table. -/
structure SummaryEntry where
  date : Nat
  trip_count : Nat
  avg_temp : ℚ
deriving DecidableEq, Repr

/-- df_time.groupby of date with trip_count unconditionally aggregated as the
pandas count over the ride_id column and mean avg_temp, sorted ascending. -/
def daily_summary (rows : List SRow) : List SummaryEntry :=
  (List.insertionSort (· ≤ ·) (firstSeenKeys (rows.map SRow.date))).map
    (fun d =>
      { date := d,
        trip_count := ((rows.filter (fun r => r.date == d)).filter
          (fun r => r.ride_id.isSome)).length,
        avg_temp := qmean ((rows.filter (fun r => r.date == d)).map SRow.avg_temp) })

/-- The Dual-Axis page: validates started_at, TMAX and TMIN, then runs an
aggregation keyed on the ride_id column without having validated that
column, so a dataset lacking the optional ride_id column raises a KeyError
inside the aggregation instead of falling back to row counting. -/
def dualAxisPage (ds : Dataset) : Except PipeError (List SummaryEntry) :=
  if missingOf ds.cols ["started_at", "TMAX", "TMIN"] ≠ [] then
    Except.error (PipeError.missingColumns
      (missingOf ds.cols ["started_at", "TMAX", "TMIN"]))
  else if ds.cols.ride_id then Except.ok (daily_summary (dualPrep ds.rows))
  else Except.error (PipeError.keyError "ride_id")

/-- Date-range and rider filters of the Weather Impact page, applied to the
prepared rows; the rider selectbox exists only when member_casual does. -/
def wfilterRows (sd ed : Nat) (choice : Rider) (hasMC : Bool)
    (rows : List WRow) : List WRow :=
  let r2 := rows.filter (fun w => decide (sd ≤ w.date) && decide (w.date ≤ ed))
  let rf := if hasMC then choice else Rider.all
  if rf ≠ Rider.all ∧ hasMC then
    r2.filter (fun w => w.member_casual == some rf.toStr)
  else r2

/-- The Weather Impact page: validates started_at, TMAX, TMIN and PRCP,
prepares and filters the rows, and picks the trip-count key by the presence
of the ride_id column. -/
def weatherPage (ds : Dataset) (sd ed : Nat) (choice : Rider) :
    Except PipeError (List DailyEntry) :=
  if missingOf ds.cols ["started_at", "TMAX", "TMIN", "PRCP"] ≠ [] then
    Except.error (PipeError.missingColumns
      (missingOf ds.cols ["started_at", "TMAX", "TMIN", "PRCP"]))
  else
    Except.ok (daily_weather ds.cols.ride_id
      (wfilterRows sd ed choice ds.cols.member_casual (weatherPrep ds.rows)))

/-- The scenario dataset loaded without a ride_id column. -/
def noRideDataset : Dataset :=
  { cols := { started_at := true, member_casual := true,
              start_station_name := true, end_station_name := true,
              TMAX := true, TMIN := true, PRCP := true, ride_id := false },
    rows := scenarioRows }

/-- The scenario rows with non-null ride ids. -/
def rideRows : List Row :=
  [{ sRow1 with ride_id := some "a" },
   { sRow2 with ride_id := some "b" },
   { sRow3 with ride_id := some "c" }]

/-- C9: on a dataset lacking the optional ride_id column, the Dual-Axis page
fails with a KeyError naming ride_id instead of degrading to row-count-based
counting, while the Weather Impact daily aggregation on the same rows does
degrade and produces the row counts 2 and 1; when every ride_id cell is
present, ride_id-based counting and row counting agree. -/
theorem dualAxis_ride_id_key_error :
    dualAxisPage noRideDataset = Except.error (PipeError.keyError "ride_id") ∧
    (daily_weather noRideDataset.cols.ride_id
      (weatherPrep noRideDataset.rows)).map DailyEntry.trip_count = [2, 1] ∧
    (daily_weather true (weatherPrep rideRows)).map DailyEntry.trip_count =
      (daily_weather false (weatherPrep rideRows)).map DailyEntry.trip_count := by
  refine ⟨rfl, by decide, by decide⟩

/-! ### value_counts and top-N rankings -/

/-- The comparison that sort_values applies to the counts: ascending when
asc is true, descending otherwise. -/
def countRel : Bool → (String × Nat) → (String × Nat) → Prop
  | true, p, q => p.2 ≤ q.2
  | false, p, q => q.2 ≤ p.2

instance countRel.instDecidableRel (asc : Bool) : DecidableRel (countRel asc) :=
  match asc with
  | true => fun p q => Nat.decLe p.2 q.2
  | false => fun p q => Nat.decLe q.2 p.2

instance countRel.instIsTotal (asc : Bool) : IsTotal (String × Nat) (countRel asc) :=
  ⟨by intro a b; cases asc <;> simp [countRel] <;> omega⟩

instance countRel.instIsTrans (asc : Bool) : IsTrans (String × Nat) (countRel asc) :=
  ⟨by intro a b c; cases asc <;> simp [countRel] <;> omega⟩

/-- pandas value_counts on a column of cell values: the distinct values in
first-seen order, each with its occurrence count, stable-sorted by count,
descending by default and ascending when asc is true. -/
def value_counts (asc : Bool) (xs : List String) : List (String × Nat) :=
  List.insertionSort (countRel asc)
    ((firstSeenKeys xs).map (fun k => (k, xs.count k)))

/-- value_counts().head(n): the n best-ranked entries. -/
def rankHead (asc : Bool) (xs : List String) (n : Nat) : List (String × Nat) :=
  (value_counts asc xs).take n

/-- The chart-ready ranking every station page builds:
value_counts().head(n).sort_values with ascending true. -/
def top_of (xs : List String) (n : Nat) : List (String × Nat) :=
  List.insertionSort (countRel true) (rankHead false xs n)

/-- The Popular Stations ranking: the start_station_name column of the raw
dataframe, dropna, value_counts, head(top_n), sort_values ascending. -/
def top_stations (col : List (Option String)) (n : Nat) : List (String × Nat) :=
  top_of (col.filterMap id) n

/-- A pair sublist of a nodup list stays a sublist of any take-prefix that
holds the second component. -/
theorem sublist_take_of_mem {α : Type} {x y : α} :
    ∀ (L : List α) (n : Nat), [x, y].Sublist L → L.Nodup → y ∈ L.take n →
      [x, y].Sublist (L.take n) := by
  intro L
  induction L with
  | nil =>
    intro n h hnd hy
    simp at hy
  | cons z L ih =>
    intro n h hnd hy
    cases n with
    | zero => simp at hy
    | succ m =>
      rw [List.take_succ_cons] at hy ⊢
      have hznotin : z ∉ L := (List.nodup_cons.mp hnd).1
      cases h with
      | cons _ h2 =>
        have hyL : y ∈ L := h2.subset (by simp)
        have hyz : y ≠ z := fun he => hznotin (he ▸ hyL)
        have hytake : y ∈ L.take m := by
          rcases List.mem_cons.mp hy with he | hm
          · exact absurd he hyz
          · exact hm
        exact (ih m h2 (List.nodup_cons.mp hnd).2 hytake).cons z
      | cons₂ _ h2 =>
        have hyL : y ∈ L := h2.subset (by simp)
        have hyz : y ≠ x := fun he => hznotin (he ▸ hyL)
        have hytake : y ∈ L.take m := by
          rcases List.mem_cons.mp hy with he | hm
          · exact absurd he hyz
          · exact hm
        exact (List.singleton_sublist.mpr hytake).cons₂ x

theorem value_counts_perm (asc : Bool) (xs : List String) :
    (value_counts asc xs).Perm
      ((firstSeenKeys xs).map (fun k => (k, xs.count k))) :=
  List.perm_insertionSort _ _

theorem value_counts_nodup (asc : Bool) (xs : List String) :
    (value_counts asc xs).Nodup :=
  (value_counts_perm asc xs).nodup_iff.mpr
    ((nodup_firstSeenKeys xs).map
      (fun a b hab => congrArg Prod.fst hab))

theorem mem_value_counts {asc : Bool} {xs : List String} {p : String × Nat} :
    p ∈ value_counts asc xs ↔ ∃ k, k ∈ xs ∧ p = (k, xs.count k) := by
  rw [value_counts, List.mem_insertionSort, List.mem_map]
  constructor
  · rintro ⟨k, hk, rfl⟩
    exact ⟨k, (mem_firstSeenKeys xs k).mp hk, rfl⟩
  · rintro ⟨k, hk, rfl⟩
    exact ⟨k, (mem_firstSeenKeys xs k).mpr hk, rfl⟩

theorem value_counts_sorted (asc : Bool) (xs : List String) :
    (value_counts asc xs).Pairwise (countRel asc) :=
  List.sorted_insertionSort _ _

/-- C5: the head(n) of value_counts has length min n (number of distinct
non-null values); every returned pair is a value of the column with its true
occurrence count; the entries are sorted by count in the requested direction
(largest counts selected by default, smallest when ascending); every distinct
value left out ranks no better than every entry kept; ties between equal
counts keep the first-seen order of the column; and the chart-ready
re-sorted ranking (sort_values ascending) is a permutation of the head,
sorted ascending, preserving the first-seen order of tied counts. -/
theorem rank_spec (col : List (Option String)) (n : Nat) (asc : Bool)
    (hn : 1 ≤ n) :
    (rankHead asc (col.filterMap id) n).length
        = min n (col.filterMap id).toFinset.card ∧
    (∀ p ∈ rankHead asc (col.filterMap id) n,
      p.1 ∈ col.filterMap id ∧ p.2 = (col.filterMap id).count p.1) ∧
    (rankHead asc (col.filterMap id) n).Pairwise (countRel asc) ∧
    (∀ k ∈ col.filterMap id,
      k ∉ (rankHead asc (col.filterMap id) n).map Prod.fst →
      ∀ p ∈ rankHead asc (col.filterMap id) n,
        countRel asc p (k, (col.filterMap id).count k)) ∧
    (∀ a b c, (a, c) ∈ rankHead asc (col.filterMap id) n →
      (b, c) ∈ rankHead asc (col.filterMap id) n →
      [a, b].Sublist (firstSeenKeys (col.filterMap id)) →
      [(a, c), (b, c)].Sublist (rankHead asc (col.filterMap id) n)) ∧
    (top_stations col n).Perm (rankHead false (col.filterMap id) n) ∧
    (top_stations col n).Pairwise (countRel true) ∧
    (∀ a b c, [(a, c), (b, c)].Sublist (rankHead false (col.filterMap id) n) →
      [(a, c), (b, c)].Sublist (top_stations col n)) := by
  refine ⟨?_, ?_, ?_, ?_, ?_, ?_, ?_, ?_⟩
  · rw [rankHead, List.length_take,
      (value_counts_perm asc (col.filterMap id)).length_eq,
      List.length_map, length_firstSeenKeys]
  · intro p hp
    rcases mem_value_counts.mp (List.take_subset _ _ hp) with ⟨k, hk, rfl⟩
    exact ⟨hk, rfl⟩
  · exact List.Pairwise.sublist (List.take_sublist _ _)
      (value_counts_sorted asc (col.filterMap id))
  · intro k hk hknot p hp
    have hkeyed : (k, (col.filterMap id).count k) ∈ value_counts asc (col.filterMap id) :=
      mem_value_counts.mpr ⟨k, hk, rfl⟩
    have hsplit := List.take_append_drop n (value_counts asc (col.filterMap id))
    have hpair := value_counts_sorted asc (col.filterMap id)
    rw [← hsplit] at hpair
    have hparts := (List.pairwise_append.mp hpair).2.2
    have hnottake : (k, (col.filterMap id).count k) ∉
        (value_counts asc (col.filterMap id)).take n := by
      intro hin
      exact hknot (List.mem_map_of_mem Prod.fst hin)
    have hdrop : (k, (col.filterMap id).count k) ∈
        (value_counts asc (col.filterMap id)).drop n := by
      rcases List.mem_append.mp (by rw [hsplit]; exact hkeyed) with h1 | h2
      · exact absurd h1 hnottake
      · exact h2
    exact hparts p hp _ hdrop
  · intro a b c hma hmb horder
    have hca : c = (col.filterMap id).count a := by
      rcases mem_value_counts.mp (List.take_subset _ _ hma) with ⟨k, hk, he⟩
      injection he with h1 h2
      rw [h1]
      exact h2
    have hcb : c = (col.filterMap id).count b := by
      rcases mem_value_counts.mp (List.take_subset _ _ hmb) with ⟨k, hk, he⟩
      injection he with h1 h2
      rw [h1]
      exact h2
    have hsubk : [(a, (col.filterMap id).count a), (b, (col.filterMap id).count b)].Sublist
        ((firstSeenKeys (col.filterMap id)).map (fun k => (k, (col.filterMap id).count k))) := by
      simpa using horder.map (fun k => (k, (col.filterMap id).count k))
    rw [← hca, ← hcb] at hsubk
    have hpairp : [(a, c), (b, c)].Pairwise (countRel asc) :=
      List.pairwise_pair.mpr (by cases asc <;> simp [countRel])
    have hvc : [(a, c), (b, c)].Sublist (value_counts asc (col.filterMap id)) :=
      List.sublist_insertionSort hpairp hsubk
    exact sublist_take_of_mem _ n hvc (value_counts_nodup asc (col.filterMap id)) hmb
  · exact List.perm_insertionSort _ _
  · exact List.sorted_insertionSort _ _
  · intro a b c h
    exact List.sublist_insertionSort
      (List.pairwise_pair.mpr (by simp [countRel])) h

/-- A concrete column with a repeated value and a null cell for witnesses. -/
def wcol : List (Option String) := [some "A", some "B", some "A", none]

/-- Closed instance of rank_spec on a concrete column. -/
theorem rank_spec_witness :
    1 ≤ 2 ∧
    ((rankHead false (wcol.filterMap id) 2).length
        = min 2 (wcol.filterMap id).toFinset.card ∧
    (∀ p ∈ rankHead false (wcol.filterMap id) 2,
      p.1 ∈ wcol.filterMap id ∧ p.2 = (wcol.filterMap id).count p.1) ∧
    (rankHead false (wcol.filterMap id) 2).Pairwise (countRel false) ∧
    (∀ k ∈ wcol.filterMap id,
      k ∉ (rankHead false (wcol.filterMap id) 2).map Prod.fst →
      ∀ p ∈ rankHead false (wcol.filterMap id) 2,
        countRel false p (k, (wcol.filterMap id).count k)) ∧
    (∀ a b c, (a, c) ∈ rankHead false (wcol.filterMap id) 2 →
      (b, c) ∈ rankHead false (wcol.filterMap id) 2 →
      [a, b].Sublist (firstSeenKeys (wcol.filterMap id)) →
      [(a, c), (b, c)].Sublist (rankHead false (wcol.filterMap id) 2)) ∧
    (top_stations wcol 2).Perm (rankHead false (wcol.filterMap id) 2) ∧
    (top_stations wcol 2).Pairwise (countRel true) ∧
    (∀ a b c, [(a, c), (b, c)].Sublist (rankHead false (wcol.filterMap id) 2) →
      [(a, c), (b, c)].Sublist (top_stations wcol 2))) :=
  ⟨by decide, rank_spec wcol 2 false (by decide)⟩

/-! ### Station balance -/

/-- dropna on both station-name columns. -/
def bothStations (rows : List Row) : List Row :=
  rows.filter (fun r => r.start_station_name.isSome && r.end_station_name.isSome)

/-- The non-null start station names of the rows. -/
def startNames (rows : List Row) : List String :=
  rows.filterMap Row.start_station_name

/-- The non-null end station names of the rows. -/
def endNames (rows : List Row) : List String :=
  rows.filterMap Row.end_station_name

/-- One row of the balance_df derived table. -/
structure BalanceEntry where
  station : String
  starts : Nat
  ends : Nat
  net_balance : Int
deriving DecidableEq, Repr

/-- value_counts over start names and over end names, outer concat over the
union of the stations, fillna 0, and net_balance = starts - ends. -/
def balance_df (rows : List Row) : List BalanceEntry :=
  (firstSeenKeys (startNames rows ++ endNames rows)).map
    (fun s =>
      { station := s, starts := (startNames rows).count s,
        ends := (endNames rows).count s,
        net_balance := ((startNames rows).count s : Int) -
          ((endNames rows).count s : Int) })

/-- The Station Balance computation: dropna on both station columns, then
the balance table. -/
def stationBalance (rows : List Row) : List BalanceEntry :=
  balance_df (bothStations rows)

/-- Projecting back the builder argument after a map is the identity. -/
theorem map_proj_map {α β : Type} (l : List α) (f : α → β) (g : β → α)
    (h : ∀ a, g (f a) = a) : (l.map f).map g = l := by
  induction l with
  | nil => rfl
  | cons a l ih => simp [h, ih]

/-- A filterMap keeps the length when every cell is present. -/
theorem length_filterMap_of_isSome {α β : Type} (f : α → Option β) (l : List α)
    (h : ∀ a ∈ l, (f a).isSome = true) : (l.filterMap f).length = l.length := by
  induction l with
  | nil => rfl
  | cons a l ih =>
    have ha := h a (List.mem_cons_self _ _)
    cases hfa : f a with
    | none => rw [hfa] at ha; simp at ha
    | some b =>
      simp [List.filterMap_cons, hfa,
        ih (fun x hx => h x (List.mem_cons_of_mem _ hx))]

/-- Summing the counts of a list over a nodup cover of its values gives its
length. -/
theorem sum_count_over_keys (K l : List String) (hnd : K.Nodup)
    (hsub : ∀ x ∈ l, x ∈ K) :
    (K.map (fun k => l.count k)).sum = l.length := by
  have h1 : (K.map (fun k => l.count k)).sum =
      K.toFinset.sum (fun k => l.count k) :=
    (List.sum_toFinset _ hnd).symm
  have hsub2 : l.toFinset ⊆ K.toFinset := fun x hx =>
    List.mem_toFinset.mpr (hsub x (List.mem_toFinset.mp hx))
  have hz : ∀ x ∈ K.toFinset, x ∉ l.toFinset → l.count x = 0 := fun x _ hx =>
    List.count_eq_zero.mpr (fun hmem => hx (List.mem_toFinset.mpr hmem))
  rw [h1, ← Finset.sum_subset hsub2 hz, List.sum_toFinset_count_eq_length]

/-- Summing a difference over a list splits into the difference of sums. -/
theorem sum_map_sub_int {α : Type} (K : List α) (f g : α → Int) :
    (K.map (fun k => f k - g k)).sum = (K.map f).sum - (K.map g).sum := by
  induction K with
  | nil => simp
  | cons a K ih =>
    simp only [List.map_cons, List.sum_cons, ih]
    ring

/-- Casting a sum of naturals to the integers commutes with mapping. -/
theorem sum_map_natCast {α : Type} (K : List α) (f : α → Nat) :
    (K.map (fun k => (f k : Int))).sum = ((K.map f).sum : Int) := by
  induction K with
  | nil => simp
  | cons a K ih => simp [ih]

/-- C6: the station-balance table has one entry per station of the union of
start and end stations of the rows surviving dropna, with no duplicate
stations; each entry carries the number of surviving rows starting there,
the number ending there (each 0 when the station never occurs on that side)
and net_balance = starts - ends; a station occurring on only one side is
handled, not an error. -/
theorem stationBalance_spec (rows : List Row) :
    ((stationBalance rows).map BalanceEntry.station).Nodup ∧
    (∀ s : String, s ∈ (stationBalance rows).map BalanceEntry.station ↔
      (s ∈ startNames (bothStations rows) ∨ s ∈ endNames (bothStations rows))) ∧
    (∀ e ∈ stationBalance rows,
      e.starts = ((bothStations rows).filter
        (fun r => r.start_station_name == some e.station)).length ∧
      e.ends = ((bothStations rows).filter
        (fun r => r.end_station_name == some e.station)).length ∧
      e.net_balance = (e.starts : Int) - (e.ends : Int) ∧
      (e.station ∉ startNames (bothStations rows) → e.starts = 0) ∧
      (e.station ∉ endNames (bothStations rows) → e.ends = 0)) := by
  have hmap : (stationBalance rows).map BalanceEntry.station =
      firstSeenKeys (startNames (bothStations rows) ++ endNames (bothStations rows)) := by
    unfold stationBalance balance_df
    exact map_proj_map _ _ _ (fun s => rfl)
  refine ⟨?_, ?_, ?_⟩
  · rw [hmap]; exact nodup_firstSeenKeys _
  · intro s
    rw [hmap, mem_firstSeenKeys, List.mem_append]
  · intro e he
    rcases List.mem_map.mp he with ⟨s, hs, rfl⟩
    refine ⟨?_, ?_, rfl, ?_, ?_⟩
    · show (startNames (bothStations rows)).count s = _
      rw [startNames, List.count_filterMap, List.countP_eq_length_filter]
    · show (endNames (bothStations rows)).count s = _
      rw [endNames, List.count_filterMap, List.countP_eq_length_filter]
    · intro hnot
      exact List.count_eq_zero.mpr hnot
    · intro hnot
      exact List.count_eq_zero.mpr hnot

/-- Closed instance of stationBalance_spec on the scenario dataset: StationA
starts 2, ends 1, net 1. -/
theorem stationBalance_spec_witness :
    ({ station := "StationA", starts := 2, ends := 1, net_balance := 1 } : BalanceEntry) ∈
      stationBalance scenarioRows ∧
    (({ station := "StationA", starts := 2, ends := 1, net_balance := 1 } : BalanceEntry).net_balance =
      ((2 : Nat) : Int) - ((1 : Nat) : Int)) :=
  ⟨by decide,
    ((stationBalance_spec scenarioRows).2.2 _ (by decide)).2.2.1⟩

/-- C7: the net_balance column of the station-balance table always sums to
zero: after dropna every counted row contributes one start and one end, so
the system is closed. -/
theorem stationBalance_net_sum_zero (rows : List Row) :
    ((stationBalance rows).map BalanceEntry.net_balance).sum = 0 := by
  have hnd : (firstSeenKeys (startNames (bothStations rows) ++
      endNames (bothStations rows))).Nodup := nodup_firstSeenKeys _
  have hS : ∀ x ∈ startNames (bothStations rows),
      x ∈ firstSeenKeys (startNames (bothStations rows) ++ endNames (bothStations rows)) :=
    fun x hx => (mem_firstSeenKeys _ x).mpr (List.mem_append_left _ hx)
  have hE : ∀ x ∈ endNames (bothStations rows),
      x ∈ firstSeenKeys (startNames (bothStations rows) ++ endNames (bothStations rows)) :=
    fun x hx => (mem_firstSeenKeys _ x).mpr (List.mem_append_right _ hx)
  have hSlen : (startNames (bothStations rows)).length = (bothStations rows).length := by
    refine length_filterMap_of_isSome _ _ ?_
    intro r hr
    have := (List.mem_filter.mp hr).2
    exact (Bool.and_eq_true_iff.mp this).1
  have hElen : (endNames (bothStations rows)).length = (bothStations rows).length := by
    refine length_filterMap_of_isSome _ _ ?_
    intro r hr
    have := (List.mem_filter.mp hr).2
    exact (Bool.and_eq_true_iff.mp this).2
  have hmap : (stationBalance rows).map BalanceEntry.net_balance =
      (firstSeenKeys (startNames (bothStations rows) ++ endNames (bothStations rows))).map
        (fun s => ((startNames (bothStations rows)).count s : Int) -
          ((endNames (bothStations rows)).count s : Int)) := by
    unfold stationBalance balance_df
    rw [List.map_map]
    rfl
  rw [hmap, sum_map_sub_int, sum_map_natCast, sum_map_natCast,
    sum_count_over_keys _ _ hnd hS, sum_count_over_keys _ _ hnd hE,
    hSlen, hElen]
  omega

/-- A row lacking its end station, to exercise the one-sided case. -/
def oneSidedRow : Row :=
  { started_at := some (18993 * 1440), member_casual := some "member",
    start_station_name := some "StationA", end_station_name := none,
    TMAX := some 40, TMIN := some 20, PRCP := some 0, ride_id := none }

/-- C10: a row missing either station name is dropped before counting, so
inserting such a row anywhere leaves the whole station-balance table
unchanged; in particular its present side is counted in neither starts nor
ends. -/
theorem stationBalance_drops_onesided (r : Row) (l1 l2 : List Row)
    (h : r.start_station_name = none ∨ r.end_station_name = none) :
    stationBalance (l1 ++ r :: l2) = stationBalance (l1 ++ l2) := by
  unfold stationBalance
  have hpred : (r.start_station_name.isSome && r.end_station_name.isSome) = false := by
    rcases h with h | h <;> simp [h]
  have hboth : bothStations (l1 ++ r :: l2) = bothStations (l1 ++ l2) := by
    unfold bothStations
    rw [List.filter_append, List.filter_append, List.filter_cons, hpred]
    simp
  rw [hboth]

/-- Closed instance of stationBalance_drops_onesided: a row with a null end
station inserted into the scenario rows changes nothing. -/
theorem stationBalance_drops_onesided_witness :
    (oneSidedRow.start_station_name = none ∨ oneSidedRow.end_station_name = none) ∧
    stationBalance ([sRow1] ++ oneSidedRow :: [sRow2, sRow3]) =
      stationBalance ([sRow1] ++ [sRow2, sRow3]) :=
  ⟨Or.inr rfl, stationBalance_drops_onesided oneSidedRow [sRow1] [sRow2, sRow3] (Or.inr rfl)⟩

/-! ### Stations and Routes, Popular Stations, Station Balance pages -/

/-- The route key, start name, an arrow, end name. -/
def routeName (r : Row) : Option String :=
  match r.start_station_name, r.end_station_name with
  | some a, some b => some (a ++ " → " ++ b)
  | _, _ => none

/-- The optional started_at date filter shared by the Stations and Routes
and the Station Balance pages: only applied when the column exists. -/
def optionalDateFilter (hasStart : Bool) (sd ed : Nat) (rows : List Row) :
    List Row :=
  if hasStart then
    (rows.filter (fun r => r.started_at.isSome)).filter (fun r =>
      match dateOf r with
      | some d => decide (sd ≤ d) && decide (d ≤ ed)
      | none => false)
  else rows

/-- The rider filter of pages whose selectbox only exists when the
member_casual column does. -/
def riderFilterRows (hasMC : Bool) (choice : Rider) (rows : List Row) :
    List Row :=
  let rf := if hasMC then choice else Rider.all
  if rf ≠ Rider.all ∧ hasMC then
    rows.filter (fun r => r.member_casual == some rf.toStr)
  else rows

/-- The Stations and Routes page: validates the two station columns, dropna,
optional date filter, rider filter, then the three rankings (top starting
stations, top ending stations, top routes). -/
def srPage (ds : Dataset) (sd ed : Nat) (choice : Rider) (nSt nRt : Nat) :
    Except PipeError
      (List (String × Nat) × List (String × Nat) × List (String × Nat)) :=
  if missingOf ds.cols ["start_station_name", "end_station_name"] ≠ [] then
    Except.error (PipeError.missingColumns
      (missingOf ds.cols ["start_station_name", "end_station_name"]))
  else
    let r3 := riderFilterRows ds.cols.member_casual choice
      (optionalDateFilter ds.cols.started_at sd ed (bothStations ds.rows))
    Except.ok (top_of (startNames r3) nSt, top_of (endNames r3) nSt,
      top_of (r3.filterMap routeName) nRt)

/-- The Popular Stations page: it performs no column validation, so
subscripting the start_station_name column of a dataset lacking it raises
an uncaught KeyError rather than the validated missing-column signal. -/
def popularPage (ds : Dataset) (n : Nat) :
    Except PipeError (List (String × Nat)) :=
  if ds.cols.start_station_name then
    Except.ok (top_stations (ds.rows.map Row.start_station_name) n)
  else Except.error (PipeError.keyError "start_station_name")

/-- The Station Balance page: validates the two station columns, dropna,
optional date filter, then the balance table. -/
def balancePage (ds : Dataset) (sd ed : Nat) :
    Except PipeError (List BalanceEntry) :=
  if missingOf ds.cols ["start_station_name", "end_station_name"] ≠ [] then
    Except.error (PipeError.missingColumns
      (missingOf ds.cols ["start_station_name", "end_station_name"]))
  else
    Except.ok (balance_df
      (optionalDateFilter ds.cols.started_at sd ed (bothStations ds.rows)))

/-- A column absent from the dataframe is listed by the validation step. -/
theorem mem_missingOf (cols : Columns) (req : List String) (c : String)
    (hc : c ∈ req) (habs : cols.has c = false) : c ∈ missingOf cols req := by
  rw [missingOf, List.mem_filter]
  exact ⟨hc, by rw [habs]; rfl⟩

/-- The scenario dataset loaded without its start_station_name column. -/
def noStartColDataset : Dataset :=
  { cols := { started_at := true, member_casual := true,
              start_station_name := false, end_station_name := true,
              TMAX := true, TMIN := true, PRCP := true, ride_id := true },
    rows := [] }

/-- C2 counterexample: the Popular Stations top-N ranking performs no
missing-column validation; on a dataset lacking start_station_name it fails
with an uncaught KeyError, not with the validated missing-column signal the
other pages produce, so the claim does not hold of every page-level
aggregation. -/
theorem popularPage_keyError_counterexample :
    noStartColDataset.cols.start_station_name = false ∧
    popularPage noStartColDataset 10 =
      Except.error (PipeError.keyError "start_station_name") ∧
    isMissingColumnsSignal (popularPage noStartColDataset 10) = false :=
  ⟨rfl, rfl, rfl⟩

/-- C2 amended: every validated page (Trips and Time Trends, Weather Impact,
Dual-Axis, Stations and Routes, Station Balance) reports the missing-column
signal naming each absent required column and produces no derived table;
the Popular Stations ranking instead raises an uncaught KeyError naming the
column, also producing no table. -/
theorem missing_column_pages (ds : Dataset) (sd ed : Nat) (choice : Rider)
    (nSt nRt n : Nat) :
    (ds.cols.started_at = false →
      tripsFilter ds sd ed choice =
        Except.error (PipeError.missingColumns ["started_at"])) ∧
    (∀ c ∈ ["started_at", "TMAX", "TMIN", "PRCP"], ds.cols.has c = false →
      ∃ l, weatherPage ds sd ed choice =
        Except.error (PipeError.missingColumns l) ∧ c ∈ l) ∧
    (∀ c ∈ ["started_at", "TMAX", "TMIN"], ds.cols.has c = false →
      ∃ l, dualAxisPage ds = Except.error (PipeError.missingColumns l) ∧ c ∈ l) ∧
    (∀ c ∈ ["start_station_name", "end_station_name"], ds.cols.has c = false →
      ∃ l, srPage ds sd ed choice nSt nRt =
        Except.error (PipeError.missingColumns l) ∧ c ∈ l) ∧
    (∀ c ∈ ["start_station_name", "end_station_name"], ds.cols.has c = false →
      ∃ l, balancePage ds sd ed =
        Except.error (PipeError.missingColumns l) ∧ c ∈ l) ∧
    (ds.cols.start_station_name = false →
      popularPage ds n = Except.error (PipeError.keyError "start_station_name")) := by
  refine ⟨?_, ?_, ?_, ?_, ?_, ?_⟩
  · intro hst
    rw [tripsFilter, if_pos hst]
  · intro c hc habs
    have hmem := mem_missingOf ds.cols _ c hc habs
    have hne : missingOf ds.cols ["started_at", "TMAX", "TMIN", "PRCP"] ≠ [] :=
      List.ne_nil_of_mem hmem
    exact ⟨_, by rw [weatherPage, if_pos hne], hmem⟩
  · intro c hc habs
    have hmem := mem_missingOf ds.cols _ c hc habs
    have hne : missingOf ds.cols ["started_at", "TMAX", "TMIN"] ≠ [] :=
      List.ne_nil_of_mem hmem
    exact ⟨_, by rw [dualAxisPage, if_pos hne], hmem⟩
  · intro c hc habs
    have hmem := mem_missingOf ds.cols _ c hc habs
    have hne : missingOf ds.cols ["start_station_name", "end_station_name"] ≠ [] :=
      List.ne_nil_of_mem hmem
    exact ⟨_, by rw [srPage, if_pos hne], hmem⟩
  · intro c hc habs
    have hmem := mem_missingOf ds.cols _ c hc habs
    have hne : missingOf ds.cols ["start_station_name", "end_station_name"] ≠ [] :=
      List.ne_nil_of_mem hmem
    exact ⟨_, by rw [balancePage, if_pos hne], hmem⟩
  · intro habs
    rw [popularPage, if_neg]
    rw [habs]
    simp

/-- The scenario dataset loaded without its TMAX column. -/
def noTMAXDataset : Dataset :=
  { cols := { started_at := true, member_casual := true,
              start_station_name := true, end_station_name := true,
              TMAX := false, TMIN := true, PRCP := true, ride_id := true },
    rows := scenarioRows }

/-- Closed instance of missing_column_pages: a dataset without TMAX makes the
Weather Impact page signal the missing-column error naming TMAX. -/
theorem missing_column_pages_witness :
    ("TMAX" ∈ ["started_at", "TMAX", "TMIN", "PRCP"] ∧
      noTMAXDataset.cols.has "TMAX" = false) ∧
    (∃ l, weatherPage noTMAXDataset 0 99999 Rider.all =
      Except.error (PipeError.missingColumns l) ∧ "TMAX" ∈ l) :=
  ⟨⟨by decide, rfl⟩,
    (missing_column_pages noTMAXDataset 0 99999 Rider.all 5 5 5).2.1
      "TMAX" (by decide) rfl⟩

/-! ### Statelessness and idempotence -/

/-- One render of the Trips filter as a state transition: the session state
is the loaded dataset, which pages never mutate (they operate on copies),
paired with the derived output. -/
def tripsRun (ds : Dataset) (sd ed : Nat) (choice : Rider) :
    Dataset × Except PipeError (List Row) :=
  (ds, tripsFilter ds sd ed choice)

/-- One render of the Trips daily aggregation as a state transition. -/
def dailyRun (ds : Dataset) (sd ed : Nat) (choice : Rider) :
    Dataset × Except PipeError (List (Nat × Nat)) :=
  (ds, (tripsFilter ds sd ed choice).map daily)

/-- One render of the Trips hourly aggregation as a state transition. -/
def hourlyRun (ds : Dataset) (sd ed : Nat) (choice : Rider) :
    Dataset × Except PipeError (List (Nat × Nat)) :=
  (ds, (tripsFilter ds sd ed choice).map hourly)

/-- One render of the Weather Impact page as a state transition. -/
def weatherRun (ds : Dataset) (sd ed : Nat) (choice : Rider) :
    Dataset × Except PipeError (List DailyEntry) :=
  (ds, weatherPage ds sd ed choice)

/-- One render of the Dual-Axis page as a state transition. -/
def dualAxisRun (ds : Dataset) :
    Dataset × Except PipeError (List SummaryEntry) :=
  (ds, dualAxisPage ds)

/-- One render of the Stations and Routes page as a state transition. -/
def srRun (ds : Dataset) (sd ed : Nat) (choice : Rider) (nSt nRt : Nat) :
    Dataset × Except PipeError
      (List (String × Nat) × List (String × Nat) × List (String × Nat)) :=
  (ds, srPage ds sd ed choice nSt nRt)

/-- One render of the Popular Stations page as a state transition. -/
def popularRun (ds : Dataset) (n : Nat) :
    Dataset × Except PipeError (List (String × Nat)) :=
  (ds, popularPage ds n)

/-- One render of the Station Balance page as a state transition. -/
def balanceRun (ds : Dataset) (sd ed : Nat) :
    Dataset × Except PipeError (List BalanceEntry) :=
  (ds, balancePage ds sd ed)

/-- C8: every embedded pipeline operation is deterministic and idempotent:
re-running any page on the state left by a first run, with the same filter
parameters, leaves the dataset snapshot untouched and produces the identical
derived table, including identical row and label order. -/
theorem pipeline_idempotent (ds : Dataset) (sd ed : Nat) (choice : Rider)
    (nSt nRt n : Nat) :
    tripsRun (tripsRun ds sd ed choice).1 sd ed choice = tripsRun ds sd ed choice ∧
    dailyRun (dailyRun ds sd ed choice).1 sd ed choice = dailyRun ds sd ed choice ∧
    hourlyRun (hourlyRun ds sd ed choice).1 sd ed choice = hourlyRun ds sd ed choice ∧
    weatherRun (weatherRun ds sd ed choice).1 sd ed choice = weatherRun ds sd ed choice ∧
    dualAxisRun (dualAxisRun ds).1 = dualAxisRun ds ∧
    srRun (srRun ds sd ed choice nSt nRt).1 sd ed choice nSt nRt =
      srRun ds sd ed choice nSt nRt ∧
    popularRun (popularRun ds n).1 n = popularRun ds n ∧
    balanceRun (balanceRun ds sd ed).1 sd ed = balanceRun ds sd ed ∧
    (tripsRun ds sd ed choice).1 = ds :=
  ⟨rfl, rfl, rfl, rfl, rfl, rfl, rfl, rfl, rfl⟩

end Dashboard
